import Mathlib

/-!
Verification of the Foldspace Console daemon
(`src/plugins/foldspace-console/daemon/index.ts`) against its
natural-language specification.

The daemon is a single-threaded Bun HTTP server whose whole state lives in
a handful of JavaScript `Map`s.  Each HTTP request handler runs atomically
with respect to the in-memory state (the only `await`s are external
subprocess / file reads, modelled here as an explicit `World` oracle), so
the server is embedded as pure Lean functions from
`DaemonState` (plus the request body and the oracle) to a new
`DaemonState` together with the list of WebSocket events it broadcasts.

Conventions:
* A JavaScript `Map` is an insertion-ordered association list;
  `mapSet` replaces in place or appends, `mapDelete` removes.
* A possibly-absent string field is `Option String`; `none` models
  `undefined`/`null`.  JavaScript truthiness tests on strings
  (`if (s)`, `s || d`) are `optTruthy` / `optStr`, which also treat
  `some ""` as falsy, exactly as JavaScript does.
* `Math.random`-generated ids, `Date.now()` timestamps and all external
  subprocess / filesystem results are inputs (parameters or `World`
  fields), never invented inside the model.
* The browser-facing `Annotation` record type is named `Annot` here.
-/

namespace Foldspace

/-- JavaScript string truthiness for a possibly-absent string:
`undefined`, `null` and `""` are falsy. -/
def optTruthy : Option String → Bool
  | none => false
  | some s => s ≠ ""

/-- JavaScript `s || d` for a possibly-absent string `s`. -/
def optStr (o : Option String) (d : String) : String :=
  match o with
  | none => d
  | some s => if s = "" then d else s

/-! ### JavaScript `Map` as an insertion-ordered association list -/

/-- `Map.get`. -/
def mapGet {α : Type} : List (String × α) → String → Option α
  | [], _ => none
  | (k', v) :: rest, k => if k' = k then some v else mapGet rest k

/-- `Map.set`: replace in place if the key is present, else append. -/
def mapSet {α : Type} : List (String × α) → String → α → List (String × α)
  | [], k, v => [(k, v)]
  | (k', v') :: rest, k, v =>
    if k' = k then (k, v) :: rest else (k', v') :: mapSet rest k v

/-- `Map.delete`. -/
def mapDelete {α : Type} (m : List (String × α)) (k : String) : List (String × α) :=
  m.filter (fun p => p.1 ≠ k)

/-- `Map.has`. -/
def mapHas {α : Type} (m : List (String × α)) (k : String) : Bool :=
  (mapGet m k).isSome

theorem mapGet_mapSet_self {α : Type} (m : List (String × α)) (k : String) (v : α) :
    mapGet (mapSet m k v) k = some v := by
  induction m with
  | nil => simp [mapSet, mapGet]
  | cons p rest ih =>
    by_cases h : p.1 = k
    · simp [mapSet, mapGet, h]
    · simp [mapSet, mapGet, h, ih]

theorem mapGet_mapSet_ne {α : Type} (m : List (String × α)) (k k' : String) (v : α)
    (h : k' ≠ k) : mapGet (mapSet m k v) k' = mapGet m k' := by
  induction m with
  | nil => simp [mapSet, mapGet, Ne.symm h]
  | cons p rest ih =>
    by_cases hp : p.1 = k
    · simp [mapSet, mapGet, hp, Ne.symm h]
    · by_cases hp' : p.1 = k'
      · simp [mapSet, mapGet, hp, hp', h]
      · simp [mapSet, mapGet, hp, hp', ih]

/-! ### Data model (source: interface declarations in daemon/index.ts) -/

/-- Source: `interface GitStatus`. -/
structure GitStatus where
  branch : String
  ahead : Nat
  behind : Nat
  staged : Nat
  modified : Nat
  untracked : Nat
  conflicted : Nat
deriving DecidableEq

/-- Source: `interface SessionMeta`. -/
structure SessionMeta where
  sessionId : String
  cwd : String
  model : String
  permissionMode : String
  startedAt : Nat
  claudeVersion : Option String
  gitBranch : Option String
  gitRemote : Option String
  gitRepo : Option String
  transcriptPath : Option String
  source : Option String
  lastActivity : Nat
  totalTokensIn : Nat
  totalTokensOut : Nat
  turnCount : Nat
  gitStatus : Option GitStatus
deriving DecidableEq

/-- Source: `interface Response` (one captured output turn). -/
structure RespEntry where
  id : String
  sessionId : String
  timestamp : Nat
  role : String
  content : String
deriving DecidableEq

/-- Source: `interface Annotation` (renamed `Annot` in this development). -/
structure Annot where
  id : String
  sessionId : String
  responseId : String
  selectedText : String
  comment : String
  timestamp : Nat
deriving DecidableEq

/-- Source: `interface ContextFile`. -/
structure ContextFile where
  path : String
  shortPath : String
  readCount : Nat
  firstRead : String
  lastRead : String
  tool : String
deriving DecidableEq

/-- Source: `interface ContextDocsResult`. -/
structure ContextDocsResult where
  files : List ContextFile
  totalReads : Nat
  uniqueFiles : Nat
deriving DecidableEq

/-- Source: entry type of `contextDocsCache` (`{ result, ts, fileSize }`). -/
structure ContextDocsCacheEntry where
  result : ContextDocsResult
  ts : Nat
  fileSize : Nat
deriving DecidableEq

/-- The WebSocket messages the daemon broadcasts (`broadcast({type, data})`). -/
inductive Event where
  | session_started (meta : SessionMeta)
  | new_response (entry : RespEntry)
  | annotation_added (a : Annot)
  | session_git_status (sessionId : String) (status : GitStatus)
  | session_ended (sessionId : Option String) (reason : Option String)
deriving DecidableEq

/-- The daemon's complete mutable state: the module-level `Map`s of
daemon/index.ts.  `gitPollingIntervals` keeps only the keys (repo roots
with a live `setInterval` timer); the timer handles themselves are
irrelevant to the state-level claims. -/
structure DaemonState where
  sessions : List (String × SessionMeta)
  responsesBySession : List (String × List RespEntry)
  annotationsBySession : List (String × List Annot)
  gitStatusCache : List (String × GitStatus)
  cwdToRepoRoot : List (String × Option String)
  gitPollingIntervals : List String
  contextDocsCache : List (String × ContextDocsCacheEntry)
deriving DecidableEq

/-- The state at daemon start: every store empty. -/
def initialState : DaemonState :=
  { sessions := [], responsesBySession := [], annotationsBySession := [],
    gitStatusCache := [], cwdToRepoRoot := [], gitPollingIntervals := [],
    contextDocsCache := [] }

/-- Source: `ensureSession` — create empty per-session sequences if absent. -/
def ensureSession (st : DaemonState) (sid : String) : DaemonState :=
  let st1 :=
    if mapHas st.responsesBySession sid then st
    else { st with responsesBySession := mapSet st.responsesBySession sid [] }
  if mapHas st1.annotationsBySession sid then st1
  else { st1 with annotationsBySession := mapSet st1.annotationsBySession sid [] }

/-! ### Annotation queue operations -/

/-- Request body of `POST /api/annotate`. -/
structure AnnotBody where
  sessionId : Option String
  responseId : String
  selectedText : String
  comment : String
deriving DecidableEq

/-- Source: handler of `POST /api/annotate`.  `newId` is the value
`generateId()` returned and `now` is `Date.now()`. -/
def handleAnnotatePost (st : DaemonState) (body : AnnotBody) (now : Nat)
    (newId : String) : DaemonState × List Event :=
  let sid := optStr body.sessionId "unknown"
  let st := ensureSession st sid
  let a : Annot :=
    { id := newId, sessionId := sid, responseId := body.responseId,
      selectedText := body.selectedText, comment := body.comment, timestamp := now }
  let pend := mapSet st.annotationsBySession sid ((mapGet st.annotationsBySession sid).getD [] ++ [a])
  ({ st with annotationsBySession := pend }, [Event.annotation_added a])

/-- Source: handler of `GET /api/annotations?session=sid`
(`annotationsBySession.get(sid) || []`). -/
def getAnnotsFor (st : DaemonState) (sid : String) : List Annot :=
  (mapGet st.annotationsBySession sid).getD []

/-- Sum of the lengths of all pending per-session sequences. -/
def totalPendingAnnots (st : DaemonState) : Nat :=
  (st.annotationsBySession.map (fun p => p.2.length)).sum

/-- Source: handler of `DELETE /api/annotations`.  With a truthy `session`
query parameter it empties that session's sequence (`anns.length = 0`) and
reports how many were cleared; without one it empties every session's
sequence and reports the total. -/
def handleAnnotsDelete (st : DaemonState) (sidParam : Option String) :
    DaemonState × Nat :=
  if optTruthy sidParam then
    let sid := sidParam.getD ""
    match mapGet st.annotationsBySession sid with
    | some anns =>
        ({ st with annotationsBySession := mapSet st.annotationsBySession sid [] },
         anns.length)
    | none => (st, 0)
  else
    let emptied := st.annotationsBySession.map (fun p => (p.1, ([] : List Annot)))
    ({ st with annotationsBySession := emptied }, totalPendingAnnots st)

/-- The drain used by the UserPromptSubmit hook (`scripts/prompt.sh`):
`GET /api/annotations?session=sid` to retrieve, then
`DELETE /api/annotations?session=sid` to clear.  This composite is the
spec's `drainAnnotations`; here the two requests run back to back with no
interleaved operation. -/
def drainAnnots (st : DaemonState) (sid : String) : DaemonState × List Annot :=
  let drained := getAnnotsFor st sid
  ((handleAnnotsDelete st (some sid)).1, drained)

/-! ### Response ledger operations -/

/-- Request body of `POST /api/response`. -/
structure RespBody where
  sessionId : Option String
  role : Option String
  content : Option String
deriving DecidableEq

/-- The entry `POST /api/response` constructs from its body
(`body.sessionId || "unknown"`, `body.role || "assistant"`,
`body.content || ""`). -/
def mkRespEntry (body : RespBody) (now : Nat) (newId : String) : RespEntry :=
  { id := newId, sessionId := optStr body.sessionId "unknown",
    timestamp := now, role := optStr body.role "assistant",
    content := (body.content.getD "") }

/-- Source: handler of `POST /api/response` — append to the session's
sequence, bump the session's activity timestamp and turn counter if it is
registered, broadcast one `new_response` event. -/
def handleResponsePost (st : DaemonState) (body : RespBody) (now : Nat)
    (newId : String) : DaemonState × List Event :=
  let sid := optStr body.sessionId "unknown"
  let st := ensureSession st sid
  let entry := mkRespEntry body now newId
  let led := mapSet st.responsesBySession sid ((mapGet st.responsesBySession sid).getD [] ++ [entry])
  let st := { st with responsesBySession := led }
  let st :=
    match mapGet st.sessions sid with
    | some meta =>
        let reg := mapSet st.sessions sid { meta with lastActivity := now, turnCount := meta.turnCount + 1 }
        { st with sessions := reg }
    | none => st
  (st, [Event.new_response entry])

/-- Source: handler of `GET /api/responses?session=sid`
(`responsesBySession.get(sid) || []`). -/
def listResponsesFor (st : DaemonState) (sid : String) : List RespEntry :=
  (mapGet st.responsesBySession sid).getD []

/-! ### Transcript scanner

`scanTranscript` reads the external JSONL log line by line; blank lines
are skipped before parsing and `JSON.parse` failures are swallowed.  The
external file is modelled at the parsed-line level: each line is blank,
malformed, or a structured record carrying exactly the fields the scanner
inspects.  `none` in an `Option` field models an absent (or falsy) value;
string fields that the source tests for truthiness keep `some ""` so the
test can be modelled faithfully. -/

/-- The usage block of an assistant record (`record.message.usage`). -/
structure Usage where
  input_tokens : Option Nat
  cache_read_input_tokens : Option Nat
  output_tokens : Option Nat
deriving DecidableEq

/-- One successfully parsed transcript record, restricted to the fields
`scanTranscript` reads. -/
structure TranscriptRecord where
  version : Option String
  gitBranch : Option String
  type : String
  usage : Option Usage
  model : Option String
deriving DecidableEq

/-- One line of the external log. -/
inductive TranscriptLine where
  | blank
  | malformed
  | record (r : TranscriptRecord)
deriving DecidableEq

/-- Return type of `scanTranscript`. -/
structure TranscriptStats where
  totalTokensIn : Nat
  totalTokensOut : Nat
  turnCount : Nat
  model : Option String
  claudeVersion : Option String
  gitBranch : Option String
deriving DecidableEq

/-- Zero-valued stats (also returned when the file is unreadable). -/
def initStats : TranscriptStats :=
  { totalTokensIn := 0, totalTokensOut := 0, turnCount := 0,
    model := none, claudeVersion := none, gitBranch := none }

/-- One loop iteration of `scanTranscript`. -/
def scanStep (acc : TranscriptStats) : TranscriptLine → TranscriptStats
  | .blank => acc
  | .malformed => acc
  | .record r =>
    let acc := if optTruthy r.version then { acc with claudeVersion := r.version } else acc
    let acc := if optTruthy r.gitBranch then { acc with gitBranch := r.gitBranch } else acc
    let acc := if r.type = "user" then { acc with turnCount := acc.turnCount + 1 } else acc
    if r.type = "assistant" then
      match r.usage with
      | some u =>
        let acc :=
          { acc with
            totalTokensIn := acc.totalTokensIn + (u.input_tokens.getD 0) + (u.cache_read_input_tokens.getD 0),
            totalTokensOut := acc.totalTokensOut + (u.output_tokens.getD 0) }
        if optTruthy r.model && (r.model.getD "" ≠ "<synthetic>") then
          { acc with model := r.model }
        else acc
      | none => acc
    else acc

/-- Source: `scanTranscript` over a readable file's lines. -/
def scanTranscript (lines : List TranscriptLine) : TranscriptStats :=
  lines.foldl scanStep initStats

/-! ### The external world

Every subprocess invocation, filesystem read and environment lookup the
daemon performs is collected into one oracle so the handlers stay pure.
`parseContextDocs`'s output is a function of the external transcript file
it reads, so it also lives here. -/

/-- Result of `getGitInfo(cwd)`. -/
structure GitInfo where
  branch : Option String
  remote : Option String
  repo : Option String
deriving DecidableEq

structure World where
  /-- `process.env.HOME`. -/
  home : String
  /-- `getGitInfo(cwd)`. -/
  gitInfo : String → GitInfo
  /-- `git -C cwd rev-parse --show-toplevel`: the repo root, or `none`
  on non-zero exit / timeout / spawn failure. -/
  repoRoot : String → Option String
  /-- `fetchGitStatus(repoRoot)`: `none` on failure or timeout. -/
  gitStatus : String → Option GitStatus
  /-- Parsed lines of the file at a path; `none` when unreadable. -/
  transcript : String → Option (List TranscriptLine)
  /-- `Bun.file(path).size`; `none` when the lookup throws. -/
  fileSize : String → Option Nat
  /-- `parseContextDocs(transcriptPath, cwd)`: a pure function of the
  external file contents, abstracted per (path, cwd). -/
  contextDocs : String → String → ContextDocsResult

/-- `scanTranscript` including the enclosing try/catch around the file
read: an unreadable path yields zero-valued stats. -/
def scanTranscriptFile (w : World) (path : String) : TranscriptStats :=
  match w.transcript path with
  | none => initStats
  | some lines => scanTranscript lines

/-! ### Repository status poller -/

/-- Source: `gitStatusEqual` — `a === b` is true for two absent values
(`undefined === undefined`); one absent value compares unequal; otherwise
the comparison is field by field. -/
def gitStatusEqual : Option GitStatus → Option GitStatus → Bool
  | none, none => true
  | some a, some b =>
      a.branch == b.branch && a.ahead == b.ahead && a.behind == b.behind &&
      a.staged == b.staged && a.modified == b.modified &&
      a.untracked == b.untracked && a.conflicted == b.conflicted
  | _, _ => false

/-- Source: `resolveRepoRoot` — per-cwd cached lookup of the repo root;
failures are cached as `null`. -/
def resolveRepoRoot (w : World) (st : DaemonState) (cwd : String) :
    DaemonState × Option String :=
  match mapGet st.cwdToRepoRoot cwd with
  | some r => (st, r)
  | none =>
    let r := w.repoRoot cwd
    ({ st with cwdToRepoRoot := mapSet st.cwdToRepoRoot cwd r }, r)

/-- The `for (const [sid, meta] of sessions)` loop body of
`pollGitStatus`: set `meta.gitStatus` and emit one `session_git_status`
event for every session whose cwd resolves to this root. -/
def updateRefSessions (cwdMap : List (String × Option String)) (root : String)
    (g : GitStatus) : List (String × SessionMeta) →
    List (String × SessionMeta) × List Event
  | [] => ([], [])
  | (sid, meta) :: rest =>
    let tail := updateRefSessions cwdMap root g rest
    if mapGet cwdMap meta.cwd = some (some root) then
      ((sid, { meta with gitStatus := some g }) :: tail.1,
       Event.session_git_status sid g :: tail.2)
    else ((sid, meta) :: tail.1, tail.2)

/-- Source: `pollGitStatus` — one poll cycle: fetch (a failed fetch is a
silent no-op), compare structurally against the cache, and only on a
difference update the cache, patch every session resolving to this root,
and broadcast per affected session. -/
def pollGitStatus (w : World) (st : DaemonState) (repoRoot : String) :
    DaemonState × List Event :=
  match w.gitStatus repoRoot with
  | none => (st, [])
  | some newStatus =>
    if gitStatusEqual (mapGet st.gitStatusCache repoRoot) (some newStatus) then
      (st, [])
    else
      let cache := mapSet st.gitStatusCache repoRoot newStatus
      let upd := updateRefSessions st.cwdToRepoRoot repoRoot newStatus st.sessions
      ({ st with gitStatusCache := cache, sessions := upd.1 }, upd.2)

/-- Source: `startGitPolling` — no-op when a timer for this root already
exists; otherwise run one immediate poll cycle and record the interval
timer.  (In the source the first poll is fired asynchronously and the
timer is registered at once; both complete before any other state access,
so they are sequenced here.) -/
def startGitPolling (w : World) (st : DaemonState) (repoRoot : String) :
    DaemonState × List Event :=
  if st.gitPollingIntervals.contains repoRoot then (st, [])
  else
    let polled := pollGitStatus w st repoRoot
    ({ polled.1 with gitPollingIntervals := polled.1.gitPollingIntervals ++ [repoRoot] },
     polled.2)

/-- Number of sessions in the registry whose cwd resolves to `root`. -/
def refSessionCount (st : DaemonState) (root : String) : Nat :=
  (st.sessions.filter (fun p => decide (mapGet st.cwdToRepoRoot p.2.cwd = some (some root)))).length

/-- Source: `maybeStopGitPolling` — if any session in the registry still
resolves to this root, do nothing; otherwise cancel and delete the timer
(when present) and evict the cached status unconditionally. -/
def maybeStopGitPolling (st : DaemonState) (root : String) : DaemonState :=
  if st.sessions.any (fun p => decide (mapGet st.cwdToRepoRoot p.2.cwd = some (some root))) then
    st
  else
    let st :=
      if st.gitPollingIntervals.contains root then
        { st with gitPollingIntervals := st.gitPollingIntervals.filter (fun r => r ≠ root) }
      else st
    { st with gitStatusCache := mapDelete st.gitStatusCache root }

/-! ### Session registration and end -/

/-- Request body of `POST /api/session`. -/
structure SessionBody where
  sessionId : Option String
  cwd : Option String
  model : Option String
  permissionMode : Option String
  source : Option String
  transcriptPath : Option String
deriving DecidableEq

/-- The `SessionMeta` literal built by `POST /api/session` before the
optional resume seeding. -/
def freshMeta (w : World) (body : SessionBody) (now : Nat) (sid : String) : SessionMeta :=
  let git := w.gitInfo (optStr body.cwd ".")
  { sessionId := sid, cwd := body.cwd.getD "", model := optStr body.model "unknown",
    permissionMode := optStr body.permissionMode "default", startedAt := now,
    claudeVersion := none, gitBranch := git.branch, gitRemote := git.remote,
    gitRepo := git.repo, transcriptPath := body.transcriptPath,
    source := body.source, lastActivity := now,
    totalTokensIn := 0, totalTokensOut := 0, turnCount := 0, gitStatus := none }

/-- The resume seeding step of `POST /api/session`: when
`body.source === "resume" && body.transcriptPath`, counters (and
opportunistic metadata) are taken from a synchronous transcript scan. -/
def seededMeta (w : World) (body : SessionBody) (meta : SessionMeta) : SessionMeta :=
  if body.source = some "resume" ∧ optTruthy body.transcriptPath then
    let stats := scanTranscriptFile w (body.transcriptPath.getD "")
    { meta with
      totalTokensIn := stats.totalTokensIn,
      totalTokensOut := stats.totalTokensOut,
      turnCount := stats.turnCount,
      claudeVersion := stats.claudeVersion,
      model := optStr stats.model meta.model,
      gitBranch := if optTruthy stats.gitBranch then stats.gitBranch else meta.gitBranch }
  else meta

/-- Source: handler of `POST /api/session` — reject a falsy session id
with a 400 and no mutation; otherwise build the record (seeding from the
transcript when resuming), store it, ensure the ledger/queue sequences,
resolve the repo root (seeding `gitStatus` from the per-root cache and
ensuring polling when one exists) and broadcast `session_started`.
The returned `Bool` is `ok` (`false` = rejected). -/
def handleSessionPost (w : World) (st : DaemonState) (body : SessionBody)
    (now : Nat) : DaemonState × List Event × Bool :=
  if optTruthy body.sessionId = false then (st, ([], false))
  else
    let sid := body.sessionId.getD ""
    let meta := seededMeta w body (freshMeta w body now sid)
    let st := { st with sessions := mapSet st.sessions sid meta }
    let st := ensureSession st sid
    let rr := resolveRepoRoot w st (if meta.cwd = "" then "." else meta.cwd)
    if optTruthy rr.2 then
      let root := rr.2.getD ""
      let cached := mapGet rr.1.gitStatusCache root
      let meta2 :=
        match cached with
        | some g => { meta with gitStatus := some g }
        | none => meta
      let st2 :=
        match cached with
        | some _ =>
          let regs := mapSet rr.1.sessions sid meta2
          { rr.1 with sessions := regs }
        | none => rr.1
      let sp := startGitPolling w st2 root
      (sp.1, (Event.session_started meta2 :: sp.2, true))
    else
      (rr.1, ([Event.session_started meta], true))

/-- Request body of `POST /api/session/end`. -/
structure SessionEndBody where
  sessionId : Option String
  reason : Option String
  transcriptPath : Option String
deriving DecidableEq

/-- Source: handler of `POST /api/session/end` — when the session exists
and a transcript path was supplied, reconcile the counters by a final
synchronous scan; broadcast `session_ended`; then, when the session's cwd
has a cached repo root, temporarily remove the session, run
`maybeStopGitPolling`, and re-insert the (retained) record. -/
def handleSessionEnd (w : World) (st : DaemonState) (body : SessionEndBody) :
    DaemonState × List Event :=
  let metaOpt :=
    match body.sessionId with
    | some sid => mapGet st.sessions sid
    | none => none
  match body.sessionId, metaOpt with
  | some sid, some meta0 =>
    let meta :=
      if optTruthy body.transcriptPath then
        let stats := scanTranscriptFile w (body.transcriptPath.getD "")
        { meta0 with
          totalTokensIn := stats.totalTokensIn,
          totalTokensOut := stats.totalTokensOut,
          turnCount := stats.turnCount,
          claudeVersion := if optTruthy stats.claudeVersion then stats.claudeVersion else meta0.claudeVersion }
      else meta0
    let st :=
      if optTruthy body.transcriptPath then
        let regs := mapSet st.sessions sid meta
        { st with sessions := regs }
      else st
    let st :=
      match mapGet st.cwdToRepoRoot meta.cwd with
      | some (some root) =>
        if root = "" then st
        else
          let st1 := { st with sessions := mapDelete st.sessions sid }
          let st2 := maybeStopGitPolling st1 root
          let regs := mapSet st2.sessions sid meta
          { st2 with sessions := regs }
      | _ => st
    (st, [Event.session_ended (some sid) body.reason])
  | _, _ => (st, [Event.session_ended body.sessionId body.reason])

/-! ### Context docs (derived-stats reads with staleness-aware cache) -/

/-- The TTL `CONTEXT_DOCS_TTL` (milliseconds). -/
def CONTEXT_DOCS_TTL : Nat := 10000

/-- Source: `resolveTranscriptPath` — prefer the stored path, fall back
to the slug derived from the cwd, `none` when neither is available. -/
def resolveTranscriptPath (home : String) (meta : SessionMeta) : Option String :=
  if optTruthy meta.transcriptPath then meta.transcriptPath
  else if meta.cwd = "" then none
  else some (home ++ "/.claude/projects/" ++ (meta.cwd.replace "/" "-") ++ "/" ++ meta.sessionId ++ ".jsonl")

/-- Responses of `GET /api/context-docs`. -/
inductive ContextDocsResponse where
  | missingParam
  | result (r : ContextDocsResult)
deriving DecidableEq

/-- Source: handler of `GET /api/context-docs` — 400 on a falsy session
parameter; empty result for an unknown session or unresolvable path; a
cache entry younger than the TTL is served as-is unless the file's
current byte length differs from the recorded one (an unreadable size
serves the stale entry); otherwise re-scan and refresh the cache.  The
returned `Bool` records whether `parseContextDocs` ran. -/
def handleContextDocsGet (w : World) (st : DaemonState) (sidParam : Option String)
    (now : Nat) : DaemonState × ContextDocsResponse × Bool :=
  if optTruthy sidParam = false then (st, (ContextDocsResponse.missingParam, false))
  else
    let sid := sidParam.getD ""
    match mapGet st.sessions sid with
    | none => (st, (ContextDocsResponse.result ⟨[], 0, 0⟩, false))
    | some meta =>
      match resolveTranscriptPath w.home meta with
      | none => (st, (ContextDocsResponse.result ⟨[], 0, 0⟩, false))
      | some tp =>
        let served : Option ContextDocsResult :=
          match mapGet st.contextDocsCache sid with
          | none => none
          | some c =>
            if now - c.ts < CONTEXT_DOCS_TTL then
              match w.fileSize tp with
              | some sz => if sz = c.fileSize then some c.result else none
              | none => some c.result
            else none
        match served with
        | some r => (st, (ContextDocsResponse.result r, false))
        | none =>
          let result := w.contextDocs tp meta.cwd
          let fsz := (w.fileSize tp).getD 0
          let cache := mapSet st.contextDocsCache sid ⟨result, now, fsz⟩
          ({ st with contextDocsCache := cache },
           (ContextDocsResponse.result result, true))

/-! ## Theorems -/

/-- If `k` is absent from the queue map, a lookup after mapping every
value to `[]` still returns what the original lookup returned, emptied. -/
theorem mapGet_map_empty (m : List (String × List Annot)) (k : String) :
    mapGet (m.map (fun p => (p.1, ([] : List Annot)))) k =
      (mapGet m k).map (fun _ => ([] : List Annot)) := by
  induction m with
  | nil => simp [mapGet]
  | cons p rest ih =>
    by_cases h : p.1 = k
    · simp [mapGet, h]
    · simp [mapGet, h, ih]

/-- Claim C1: for every session, after any sequence of `addAnnotation`
calls followed by one drain (the GET-then-DELETE of
`/api/annotations?session=sid`), the drain returns exactly the pending
sequence it found and leaves it empty; a second drain with no intervening
append returns empty; draining a session id with no pending sequence
returns empty and mutates nothing.  The arbitrary `st` covers every
reachable pending sequence, in particular any sequence of appends. -/
theorem C1_fire_once_drain (st : DaemonState) (sid : String) (hsid : sid ≠ "") :
    (drainAnnots st sid).2 = getAnnotsFor st sid ∧
    getAnnotsFor (drainAnnots st sid).1 sid = [] ∧
    (drainAnnots (drainAnnots st sid).1 sid).2 = [] ∧
    (mapGet st.annotationsBySession sid = none →
      (drainAnnots st sid).1 = st ∧ (drainAnnots st sid).2 = []) := by
  have htr : optTruthy (some sid) = true := by simp [optTruthy, hsid]
  have hempty : getAnnotsFor (drainAnnots st sid).1 sid = [] := by
    cases h : mapGet st.annotationsBySession sid with
    | none => simp [drainAnnots, handleAnnotsDelete, htr, getAnnotsFor, h]
    | some anns =>
        simp [drainAnnots, handleAnnotsDelete, htr, getAnnotsFor, h, mapGet_mapSet_self]
  refine ⟨rfl, hempty, ?_, ?_⟩
  · show getAnnotsFor (drainAnnots st sid).1 sid = []
    exact hempty
  · intro h
    constructor
    · simp [drainAnnots, handleAnnotsDelete, htr, h]
    · simp [drainAnnots, getAnnotsFor, h]

/-- A state reached by two appends to session `"s"`: the input for the
C1 witness. -/
def stC1 : DaemonState :=
  (handleAnnotatePost
    (handleAnnotatePost initialState ⟨some "s", "r1", "first", "tighten this", ⟩ 5 "i1").1
    ⟨some "s", "r1", "second", "and this", ⟩ 6 "i2").1

theorem C1_fire_once_drain_witness :
    getAnnotsFor stC1 "s" =
      [⟨"i1", "s", "r1", "first", "tighten this", 5⟩,
       ⟨"i2", "s", "r1", "second", "and this", 6⟩] ∧
    (drainAnnots stC1 "s").2 = getAnnotsFor stC1 "s" ∧
    getAnnotsFor (drainAnnots stC1 "s").1 "s" = [] ∧
    (drainAnnots (drainAnnots stC1 "s").1 "s").2 = [] ∧
    ((drainAnnots initialState "ghost").1 = initialState ∧
     (drainAnnots initialState "ghost").2 = []) := by
  refine ⟨by decide, (C1_fire_once_drain stC1 "s" (by decide)).1,
    (C1_fire_once_drain stC1 "s" (by decide)).2.1,
    (C1_fire_once_drain stC1 "s" (by decide)).2.2.1,
    (C1_fire_once_drain initialState "ghost" (by decide)).2.2.2 (by decide)⟩

/-- Claim C10: a per-session clear (`DELETE /api/annotations?session=sid`)
empties only that session's pending sequence — every other session's
pending sequence, all response ledgers, the session registry and every
other store are untouched — and reports how many it cleared; the same
DELETE without a session parameter empties every pending sequence and
reports the total number cleared, touching nothing else. -/
theorem C10_clear_scope (st : DaemonState) (sid : String) (hsid : sid ≠ "") :
    (getAnnotsFor (handleAnnotsDelete st (some sid)).1 sid = [] ∧
     (∀ s, s ≠ sid →
        mapGet (handleAnnotsDelete st (some sid)).1.annotationsBySession s =
          mapGet st.annotationsBySession s) ∧
     (handleAnnotsDelete st (some sid)).1.responsesBySession = st.responsesBySession ∧
     (handleAnnotsDelete st (some sid)).1.sessions = st.sessions ∧
     (handleAnnotsDelete st (some sid)).1.gitStatusCache = st.gitStatusCache ∧
     (handleAnnotsDelete st (some sid)).1.cwdToRepoRoot = st.cwdToRepoRoot ∧
     (handleAnnotsDelete st (some sid)).1.gitPollingIntervals = st.gitPollingIntervals ∧
     (handleAnnotsDelete st (some sid)).1.contextDocsCache = st.contextDocsCache ∧
     (handleAnnotsDelete st (some sid)).2 = (getAnnotsFor st sid).length) ∧
    ((∀ s, getAnnotsFor (handleAnnotsDelete st none).1 s = []) ∧
     (handleAnnotsDelete st none).2 = totalPendingAnnots st ∧
     (handleAnnotsDelete st none).1.responsesBySession = st.responsesBySession ∧
     (handleAnnotsDelete st none).1.sessions = st.sessions) := by
  have htr : optTruthy (some sid) = true := by simp [optTruthy, hsid]
  constructor
  · cases h : mapGet st.annotationsBySession sid with
    | none =>
        refine ⟨?_, ?_, ?_, ?_, ?_, ?_, ?_, ?_, ?_⟩ <;>
          simp [handleAnnotsDelete, htr, getAnnotsFor, h]
    | some anns =>
        refine ⟨?_, ?_, ?_, ?_, ?_, ?_, ?_, ?_, ?_⟩
        · simp [handleAnnotsDelete, htr, getAnnotsFor, h, mapGet_mapSet_self]
        · intro s hs
          simp [handleAnnotsDelete, htr, h, mapGet_mapSet_ne _ _ _ _ hs]
        all_goals simp [handleAnnotsDelete, htr, getAnnotsFor, h]
  · refine ⟨?_, ?_, ?_, ?_⟩
    · intro s
      simp [handleAnnotsDelete, optTruthy, getAnnotsFor, mapGet_map_empty]
      cases mapGet st.annotationsBySession s <;> simp
    all_goals simp [handleAnnotsDelete, optTruthy]

/-- A state with pending annotations in two sessions, for the C10
witness: two under `"a"`, one under `"b"`. -/
def stC10 : DaemonState :=
  (handleAnnotatePost
    (handleAnnotatePost
      (handleAnnotatePost initialState ⟨some "a", "r1", "x", "c1", ⟩ 1 "j1").1
      ⟨some "a", "r2", "y", "c2", ⟩ 2 "j2").1
    ⟨some "b", "r3", "z", "c3", ⟩ 3 "j3").1

theorem C10_clear_scope_witness :
    getAnnotsFor (handleAnnotsDelete stC10 (some "a")).1 "a" = [] ∧
    mapGet (handleAnnotsDelete stC10 (some "a")).1.annotationsBySession "b" =
      mapGet stC10.annotationsBySession "b" ∧
    (handleAnnotsDelete stC10 (some "a")).1.responsesBySession = stC10.responsesBySession ∧
    (handleAnnotsDelete stC10 (some "a")).2 = 2 ∧
    getAnnotsFor (handleAnnotsDelete stC10 none).1 "b" = [] ∧
    (handleAnnotsDelete stC10 none).2 = 3 := by
  refine ⟨(C10_clear_scope stC10 "a" (by decide)).1.1,
    (C10_clear_scope stC10 "a" (by decide)).1.2.1 "b" (by decide),
    (C10_clear_scope stC10 "a" (by decide)).1.2.2.1,
    ((C10_clear_scope stC10 "a" (by decide)).1.2.2.2.2.2.2.2.2).trans (by decide),
    (C10_clear_scope stC10 "a" (by decide)).2.1 "b",
    ((C10_clear_scope stC10 "a" (by decide)).2.2.1).trans (by decide)⟩

/-! ### C2: drain / append interleaving

`scripts/prompt.sh` drains in two separate HTTP requests — a GET (the
read step) and a DELETE (the clear step).  The single-threaded daemon can
process a `POST /api/annotate` between the two.  The schedule below is
exactly that interleaving: read, append, clear, each an atomic handler
invocation. -/

/-- The annotation appended between the drain's read and clear steps. -/
def annC2 : Annot := ⟨"a1", "s", "r1", "wrong", "fix it", 10⟩

/-- State after the in-flight drain's read step (which saw an empty
queue) and the concurrent append. -/
def stC2afterAppend : DaemonState :=
  (handleAnnotatePost initialState ⟨some "s", "r1", "wrong", "fix it", ⟩ 10 "a1").1

/-- State after the drain's clear step (`DELETE /api/annotations?session=s`). -/
def stC2afterClear : DaemonState :=
  (handleAnnotsDelete stC2afterAppend (some "s")).1

/-- Claim C2, evaluated at the failing schedule: the drain's read step
returned the empty queue, the concurrently appended annotation was
pending when the clear step ran, the clear step wiped it, and the next
drain returns empty — the annotation is lost, though the claim (and the
spec's concurrency contract) requires it to be returned by the next
drain. -/
theorem C2_concurrent_append_lost :
    getAnnotsFor initialState "s" = [] ∧
    getAnnotsFor stC2afterAppend "s" = [annC2] ∧
    getAnnotsFor stC2afterClear "s" = [] ∧
    (drainAnnots stC2afterClear "s").2 = [] := by
  decide

/-! ### C3: root reference counting across session end

`POST /api/session/end` retains the ended record: it removes the session
only for the duration of its own `maybeStopGitPolling` call and then
re-inserts it.  When the second of two sessions sharing a repo root ends,
the first (ended, re-inserted) session still counts as a reference, so
the timer is never cancelled and the cached status never evicted. -/

/-- The status the poller fetches for the shared root. -/
def gC3 : GitStatus := ⟨"main", 0, 0, 0, 0, 0, 0⟩

/-- World for the C3 run: both working directories resolve to the root
`"/repo"` and a status fetch succeeds. -/
def wC3 : World :=
  { home := "/home/u",
    gitInfo := fun _ => ⟨none, none, none⟩,
    repoRoot := fun _ => some "/repo",
    gitStatus := fun _ => some gC3,
    transcript := fun _ => none,
    fileSize := fun _ => none,
    contextDocs := fun _ _ => ⟨[], 0, 0⟩ }

/-- State after registering sessions `s1` (cwd `/repo/a`) and `s2`
(cwd `/repo/b`), both resolving to root `/repo`. -/
def stC3reg : DaemonState :=
  (handleSessionPost wC3
    (handleSessionPost wC3 initialState ⟨some "s1", some "/repo/a", none, none, none, none⟩ 100).1
    ⟨some "s2", some "/repo/b", none, none, none, none⟩ 200).1

/-- State after then ending `s1` and `s2`, in that order. -/
def stC3end : DaemonState :=
  (handleSessionEnd wC3
    (handleSessionEnd wC3 stC3reg ⟨some "s1", some "other", none⟩).1
    ⟨some "s2", some "other", none⟩).1

/-- Claim C3, evaluated at the failing input: registering the two
sessions starts exactly one poll timer for `/repo` (the claim's first
half holds), but after `endSession` has been called for both sessions
the timer is still registered and the cached status is still present —
the cleanup the claim (and the handler's own comments) promise never
happens, because the re-inserted ended session `s1` still counts as a
reference while `s2` ends. -/
theorem C3_poll_timer_never_stopped :
    stC3reg.gitPollingIntervals = ["/repo"] ∧
    stC3end.gitPollingIntervals = ["/repo"] ∧
    mapGet stC3end.gitStatusCache "/repo" = some gC3 := by
  decide

/-! ### C4: structural-diff gating of poll broadcasts -/

/-- The poll loop emits exactly one event per session whose cwd resolves
to the polled root. -/
theorem updateRefSessions_events_length (cwdMap : List (String × Option String))
    (root : String) (g : GitStatus) (ss : List (String × SessionMeta)) :
    (updateRefSessions cwdMap root g ss).2.length =
      (ss.filter fun p => decide (mapGet cwdMap p.2.cwd = some (some root))).length := by
  induction ss with
  | nil => simp [updateRefSessions]
  | cons p rest ih =>
    obtain ⟨sid, meta⟩ := p
    by_cases h : mapGet cwdMap meta.cwd = some (some root)
    · simp [updateRefSessions, h, ih]
    · simp [updateRefSessions, h, ih]

/-- Every event the poll loop emits is a `session_git_status`
notification carrying the freshly fetched status. -/
theorem updateRefSessions_events_shape (cwdMap : List (String × Option String))
    (root : String) (g : GitStatus) (ss : List (String × SessionMeta)) :
    ∀ e ∈ (updateRefSessions cwdMap root g ss).2,
      ∃ sid, e = Event.session_git_status sid g := by
  induction ss with
  | nil => simp [updateRefSessions]
  | cons p rest ih =>
    obtain ⟨sid, meta⟩ := p
    by_cases h : mapGet cwdMap meta.cwd = some (some root)
    · simp only [updateRefSessions, h, if_pos]
      intro e he
      rcases List.mem_cons.mp he with rfl | he'
      · exact ⟨sid, rfl⟩
      · exact ih e he'
    · simp only [updateRefSessions, h, if_neg, not_false_eq_true]
      exact ih

/-- Structural equality is reflexive. -/
theorem gitStatusEqual_self (g : GitStatus) : gitStatusEqual (some g) (some g) = true := by
  simp [gitStatusEqual]

/-- Claim C4: for a poll cycle on a root whose status fetch succeeds, a
notification is broadcast iff the fetched status differs structurally
from the cached one (given at least one session resolves to the root —
always true while a root is polled, since polling is started only from a
registration that has just inserted such a session and sessions are never
removed).  When equal, the entire state — cache and all session records —
is unchanged and nothing is broadcast.  When different, the cache is
updated and exactly one `session_git_status` event is emitted per
affected session.  A second poll cycle that fetches a structurally
identical status broadcasts nothing. -/
theorem C4_structural_diff_gating (w : World) (st : DaemonState) (root : String)
    (s : GitStatus) (hfetch : w.gitStatus root = some s) :
    (gitStatusEqual (mapGet st.gitStatusCache root) (some s) = true →
       pollGitStatus w st root = (st, [])) ∧
    (gitStatusEqual (mapGet st.gitStatusCache root) (some s) = false →
       mapGet (pollGitStatus w st root).1.gitStatusCache root = some s ∧
       (pollGitStatus w st root).2.length = refSessionCount st root ∧
       (∀ e ∈ (pollGitStatus w st root).2, ∃ sid, e = Event.session_git_status sid s)) ∧
    (0 < refSessionCount st root →
       ((pollGitStatus w st root).2 ≠ [] ↔
         gitStatusEqual (mapGet st.gitStatusCache root) (some s) = false)) ∧
    (pollGitStatus w (pollGitStatus w st root).1 root).2 = [] := by
  have hgen : ∀ st0 : DaemonState,
      gitStatusEqual (mapGet st0.gitStatusCache root) (some s) = true →
      pollGitStatus w st0 root = (st0, []) := by
    intro st0 heq0
    simp [pollGitStatus, hfetch, heq0]
  have hpoll_ne : gitStatusEqual (mapGet st.gitStatusCache root) (some s) = false →
      mapGet (pollGitStatus w st root).1.gitStatusCache root = some s ∧
      (pollGitStatus w st root).2.length = refSessionCount st root ∧
      (∀ e ∈ (pollGitStatus w st root).2, ∃ sid, e = Event.session_git_status sid s) := by
    intro hne
    refine ⟨?_, ?_, ?_⟩
    · simp [pollGitStatus, hfetch, hne, mapGet_mapSet_self]
    · simp [pollGitStatus, hfetch, hne, updateRefSessions_events_length, refSessionCount]
    · simp only [pollGitStatus, hfetch, hne, Bool.false_eq_true, if_false]
      exact updateRefSessions_events_shape st.cwdToRepoRoot root s st.sessions
  refine ⟨hgen st, hpoll_ne, ?_, ?_⟩
  · intro hcount
    cases heq : gitStatusEqual (mapGet st.gitStatusCache root) (some s) with
    | true =>
        constructor
        · intro hne
          exact absurd (by rw [hgen st heq]) hne
        · intro hfalse
          exact absurd hfalse (by simp)
    | false =>
        constructor
        · intro _
          rfl
        · intro _ hnil
          have hlen := (hpoll_ne heq).2.1
          rw [hnil] at hlen
          simp only [List.length_nil] at hlen
          omega
  · cases heq : gitStatusEqual (mapGet st.gitStatusCache root) (some s) with
    | true =>
        have h1 := hgen st heq
        rw [h1]
        show (pollGitStatus w st root).2 = []
        rw [h1]
    | false =>
        have hc := (hpoll_ne heq).1
        have ht : gitStatusEqual (mapGet (pollGitStatus w st root).1.gitStatusCache root) (some s) = true := by
          rw [hc]
          exact gitStatusEqual_self s
        rw [hgen (pollGitStatus w st root).1 ht]

/-- A registry with one session whose cwd resolves to root `"/r"` and an
empty status cache: the state just before the Active-entry poll. -/
def stC4 : DaemonState :=
  { initialState with
    sessions := [("s1",
      { sessionId := "s1", cwd := "/r/a", model := "m", permissionMode := "default",
        startedAt := 0, claudeVersion := none, gitBranch := none, gitRemote := none,
        gitRepo := none, transcriptPath := none, source := none, lastActivity := 0,
        totalTokensIn := 0, totalTokensOut := 0, turnCount := 0, gitStatus := none })],
    cwdToRepoRoot := [("/r/a", some "/r")] }

/-- World for the C4 witness: every fetch of `"/r"` returns the same
status. -/
def wC4 : World :=
  { home := "/home/u",
    gitInfo := fun _ => ⟨none, none, none⟩,
    repoRoot := fun _ => some "/r",
    gitStatus := fun _ => some gC3,
    transcript := fun _ => none,
    fileSize := fun _ => none,
    contextDocs := fun _ _ => ⟨[], 0, 0⟩ }

theorem C4_structural_diff_gating_witness :
    (pollGitStatus wC4 stC4 "/r").2.length = 1 ∧
    (pollGitStatus wC4 stC4 "/r").2 ≠ [] ∧
    mapGet (pollGitStatus wC4 stC4 "/r").1.gitStatusCache "/r" = some gC3 ∧
    (pollGitStatus wC4 (pollGitStatus wC4 stC4 "/r").1 "/r").2 = [] ∧
    pollGitStatus wC4 (pollGitStatus wC4 stC4 "/r").1 "/r" =
      ((pollGitStatus wC4 stC4 "/r").1, []) := by
  refine ⟨((C4_structural_diff_gating wC4 stC4 "/r" gC3 rfl).2.1 (by decide)).2.1.trans (by decide),
    ((C4_structural_diff_gating wC4 stC4 "/r" gC3 rfl).2.2.1 (by decide)).mpr (by decide),
    ((C4_structural_diff_gating wC4 stC4 "/r" gC3 rfl).2.1 (by decide)).1,
    (C4_structural_diff_gating wC4 stC4 "/r" gC3 rfl).2.2.2,
    (C4_structural_diff_gating wC4 (pollGitStatus wC4 stC4 "/r").1 "/r" gC3 rfl).1 (by decide)⟩

/-! ### C5: resume seeding -/

/-- The three counters the resume seeding populates. -/
def countersOf (m : SessionMeta) : Nat × Nat × Nat :=
  (m.turnCount, m.totalTokensIn, m.totalTokensOut)

theorem countersOf_updateRefSessions (cwdMap : List (String × Option String))
    (root : String) (g : GitStatus) (ss : List (String × SessionMeta)) (sid : String) :
    (mapGet (updateRefSessions cwdMap root g ss).1 sid).map countersOf =
      (mapGet ss sid).map countersOf := by
  induction ss with
  | nil => simp [updateRefSessions]
  | cons p rest ih =>
    obtain ⟨k, meta⟩ := p
    by_cases hcwd : mapGet cwdMap meta.cwd = some (some root) <;>
      by_cases hk : k = sid <;>
        simp [updateRefSessions, mapGet, hcwd, hk, ih, countersOf]

theorem countersOf_pollGitStatus (w : World) (st : DaemonState) (root sid : String) :
    (mapGet (pollGitStatus w st root).1.sessions sid).map countersOf =
      (mapGet st.sessions sid).map countersOf := by
  cases hf : w.gitStatus root with
  | none => simp [pollGitStatus, hf]
  | some g =>
    by_cases heq : gitStatusEqual (mapGet st.gitStatusCache root) (some g) = true
    · simp [pollGitStatus, hf, heq]
    · simp [pollGitStatus, hf, heq, countersOf_updateRefSessions]

theorem countersOf_startGitPolling (w : World) (st : DaemonState) (root sid : String) :
    (mapGet (startGitPolling w st root).1.sessions sid).map countersOf =
      (mapGet st.sessions sid).map countersOf := by
  by_cases hc : root ∈ st.gitPollingIntervals
  · simp [startGitPolling, hc]
  · simp [startGitPolling, hc, countersOf_pollGitStatus]

theorem sessions_ensureSession (st : DaemonState) (sid : String) :
    (ensureSession st sid).sessions = st.sessions := by
  dsimp only [ensureSession]
  split <;> split <;> rfl

theorem sessions_resolveRepoRoot (w : World) (st : DaemonState) (cwd : String) :
    (resolveRepoRoot w st cwd).1.sessions = st.sessions := by
  unfold resolveRepoRoot
  cases mapGet st.cwdToRepoRoot cwd <;> rfl

/-- Other stores of `resolveRepoRoot`'s result needed later. -/
theorem gitStatusCache_resolveRepoRoot (w : World) (st : DaemonState) (cwd : String) :
    (resolveRepoRoot w st cwd).1.gitStatusCache = st.gitStatusCache := by
  unfold resolveRepoRoot
  cases mapGet st.cwdToRepoRoot cwd <;> rfl

/-- After a successful registration, the stored record's counters are
exactly those of the (possibly seeded) meta the handler built. -/
theorem handleSessionPost_counters (w : World) (st : DaemonState) (body : SessionBody)
    (now : Nat) (hsid : optTruthy body.sessionId = true) :
    (mapGet (handleSessionPost w st body now).1.sessions (body.sessionId.getD "")).map countersOf =
      some (countersOf (seededMeta w body (freshMeta w body now (body.sessionId.getD "")))) := by
  unfold handleSessionPost
  rw [hsid]
  simp only [Bool.true_eq_false, if_false]
  set sid := body.sessionId.getD "" with hsidget
  set meta := seededMeta w body (freshMeta w body now sid) with hmeta
  set st1 := { st with sessions := mapSet st.sessions sid meta } with hst1
  set st2 := ensureSession st1 sid with hst2
  have hbase : mapGet st2.sessions sid = some meta := by
    rw [hst2, sessions_ensureSession, hst1]
    exact mapGet_mapSet_self st.sessions sid meta
  set rr := resolveRepoRoot w st2 (if meta.cwd = "" then "." else meta.cwd) with hrr
  have hrrs : mapGet rr.1.sessions sid = some meta := by
    rw [hrr, sessions_resolveRepoRoot]
    exact hbase
  by_cases hroot : optTruthy rr.2 = true
  · simp only [hroot, if_true]
    cases hcached : mapGet rr.1.gitStatusCache (rr.2.getD "") with
    | none =>
        simp only [hcached]
        rw [countersOf_startGitPolling, hrrs]
        rfl
    | some g =>
        simp only [hcached]
        rw [countersOf_startGitPolling]
        rw [mapGet_mapSet_self]
        rfl
  · simp only [Bool.not_eq_true] at hroot
    simp only [hroot, Bool.false_eq_true, if_false]
    rw [hrrs]
    rfl

/-- Claim C5: `registerSession` with `source = resume` and a truthy
transcript path seeds the new record's counters synchronously from the
transcript scan before the call returns; with any other source, or
without a transcript path, the counters are zero. -/
theorem C5_resume_seeding (w : World) (st : DaemonState) (body : SessionBody)
    (now : Nat) (hsid : optTruthy body.sessionId = true) :
    ((body.source = some "resume" ∧ optTruthy body.transcriptPath = true) →
      (mapGet (handleSessionPost w st body now).1.sessions (body.sessionId.getD "")).map countersOf =
        some ((scanTranscriptFile w (body.transcriptPath.getD "")).turnCount,
              (scanTranscriptFile w (body.transcriptPath.getD "")).totalTokensIn,
              (scanTranscriptFile w (body.transcriptPath.getD "")).totalTokensOut)) ∧
    (¬(body.source = some "resume" ∧ optTruthy body.transcriptPath = true) →
      (mapGet (handleSessionPost w st body now).1.sessions (body.sessionId.getD "")).map countersOf =
        some (0, 0, 0)) := by
  have hkey := handleSessionPost_counters w st body now hsid
  constructor
  · intro hres
    rw [hkey]
    simp only [seededMeta, hres.1, hres.2, and_self, if_true]
    simp [countersOf]
  · intro hres
    rw [hkey]
    have : ¬(body.source = some "resume" ∧ (optTruthy body.transcriptPath : Prop)) := by
      intro h
      exact hres ⟨h.1, h.2⟩
    simp only [seededMeta, this, if_false]
    simp [countersOf, freshMeta]

/-- World for the C5 witness: the transcript at `/t.jsonl` holds two user
records and one assistant record with usage `input=100 / output=40`, plus
one malformed line that must be skipped. -/
def wC5 : World :=
  { home := "/home/u",
    gitInfo := fun _ => ⟨none, none, none⟩,
    repoRoot := fun _ => none,
    gitStatus := fun _ => none,
    transcript := fun p =>
      if p = "/t.jsonl" then
        some [TranscriptLine.record ⟨none, none, "user", none, none⟩,
              TranscriptLine.malformed,
              TranscriptLine.record
                ⟨none, none, "assistant", some ⟨some 100, none, some 40⟩, some "m1"⟩,
              TranscriptLine.record ⟨none, none, "user", none, none⟩]
      else none,
    fileSize := fun _ => none,
    contextDocs := fun _ _ => ⟨[], 0, 0⟩ }

/-- Resume-seeding request body for the witness. -/
def bodyC5 : SessionBody :=
  ⟨some "s9", some "/w", none, none, some "resume", some "/t.jsonl"⟩

/-- The same body with a fresh (non-resume) source. -/
def bodyC5fresh : SessionBody :=
  ⟨some "s9", some "/w", none, none, some "startup", some "/t.jsonl"⟩

theorem C5_resume_seeding_witness :
    (mapGet (handleSessionPost wC5 initialState bodyC5 7).1.sessions "s9").map countersOf =
      some (2, 100, 40) ∧
    (mapGet (handleSessionPost wC5 initialState bodyC5fresh 7).1.sessions "s9").map countersOf =
      some (0, 0, 0) := by
  constructor
  · exact ((C5_resume_seeding wC5 initialState bodyC5 7 (by decide)).1
      ⟨rfl, by decide⟩).trans (by decide)
  · exact (C5_resume_seeding wC5 initialState bodyC5fresh 7 (by decide)).2 (by decide)

/-! ### Frame lemmas for the append handlers -/

theorem optStr_of_falsy (o : Option String) (d : String) (h : optTruthy o = false) :
    optStr o d = d := by
  cases o with
  | none => rfl
  | some s =>
    simp only [optTruthy, ne_eq, decide_not] at h
    simp only [Bool.not_eq_false', decide_eq_true_eq] at h
    simp [optStr, h]

theorem responsesBySession_ensureSession (st : DaemonState) (sid : String) :
    (ensureSession st sid).responsesBySession =
      (if mapHas st.responsesBySession sid then st.responsesBySession
       else mapSet st.responsesBySession sid []) := by
  dsimp only [ensureSession]
  split <;> split <;> rfl

theorem annotationsBySession_ensureSession (st : DaemonState) (sid : String) :
    (ensureSession st sid).annotationsBySession =
      (if mapHas st.annotationsBySession sid then st.annotationsBySession
       else mapSet st.annotationsBySession sid []) := by
  dsimp only [ensureSession]
  by_cases h1 : mapHas st.responsesBySession sid <;>
    simp only [h1, if_true, if_false, Bool.false_eq_true] <;>
    split <;> rfl

theorem listResponsesFor_ensureSession (st : DaemonState) (sid sid' : String) :
    listResponsesFor (ensureSession st sid) sid' = listResponsesFor st sid' := by
  unfold listResponsesFor
  rw [responsesBySession_ensureSession]
  by_cases h1 : mapHas st.responsesBySession sid
  · rw [if_pos h1]
  · rw [if_neg h1]
    by_cases h2 : sid' = sid
    · subst h2
      unfold mapHas at h1
      cases hmg : mapGet st.responsesBySession sid' with
      | none => rw [mapGet_mapSet_self]; simp
      | some v => rw [hmg] at h1; simp at h1
    · rw [mapGet_mapSet_ne _ _ _ _ h2]

theorem getAnnotsFor_ensureSession (st : DaemonState) (sid sid' : String) :
    getAnnotsFor (ensureSession st sid) sid' = getAnnotsFor st sid' := by
  unfold getAnnotsFor
  rw [annotationsBySession_ensureSession]
  by_cases h1 : mapHas st.annotationsBySession sid
  · rw [if_pos h1]
  · rw [if_neg h1]
    by_cases h2 : sid' = sid
    · subst h2
      unfold mapHas at h1
      cases hmg : mapGet st.annotationsBySession sid' with
      | none => rw [mapGet_mapSet_self]; simp
      | some v => rw [hmg] at h1; simp at h1
    · rw [mapGet_mapSet_ne _ _ _ _ h2]

theorem mapGet_respBySession_ensureSession_ne (st : DaemonState) (sid sid' : String)
    (h : sid' ≠ sid) :
    mapGet (ensureSession st sid).responsesBySession sid' = mapGet st.responsesBySession sid' := by
  rw [responsesBySession_ensureSession]
  split
  · rfl
  · rw [mapGet_mapSet_ne _ _ _ _ h]

theorem mapGet_annotsBySession_ensureSession_ne (st : DaemonState) (sid sid' : String)
    (h : sid' ≠ sid) :
    mapGet (ensureSession st sid).annotationsBySession sid' = mapGet st.annotationsBySession sid' := by
  rw [annotationsBySession_ensureSession]
  split
  · rfl
  · rw [mapGet_mapSet_ne _ _ _ _ h]

/-- The response handler's ledger effect: append one entry to the target
session's sequence, leave every other sequence untouched. -/
theorem listResponsesFor_handleResponsePost (st : DaemonState) (body : RespBody)
    (now : Nat) (newId : String) (sid' : String) :
    listResponsesFor (handleResponsePost st body now newId).1 sid' =
      (if sid' = optStr body.sessionId "unknown" then
        listResponsesFor st sid' ++ [mkRespEntry body now newId]
       else listResponsesFor st sid') := by
  dsimp only [handleResponsePost]
  split
  case _ meta hm =>
    unfold listResponsesFor
    dsimp only
    by_cases h2 : sid' = optStr body.sessionId "unknown"
    · subst h2
      rw [if_pos rfl, mapGet_mapSet_self]
      have := listResponsesFor_ensureSession st (optStr body.sessionId "unknown")
        (optStr body.sessionId "unknown")
      unfold listResponsesFor at this
      rw [this]
      rfl
    · rw [if_neg h2, mapGet_mapSet_ne _ _ _ _ h2]
      have := mapGet_respBySession_ensureSession_ne st _ sid' h2
      rw [this]
  case _ hm =>
    unfold listResponsesFor
    dsimp only
    by_cases h2 : sid' = optStr body.sessionId "unknown"
    · subst h2
      rw [if_pos rfl, mapGet_mapSet_self]
      have := listResponsesFor_ensureSession st (optStr body.sessionId "unknown")
        (optStr body.sessionId "unknown")
      unfold listResponsesFor at this
      rw [this]
      rfl
    · rw [if_neg h2, mapGet_mapSet_ne _ _ _ _ h2]
      have := mapGet_respBySession_ensureSession_ne st _ sid' h2
      rw [this]

/-- The response handler's registry effect: bump activity and turn count
of the target session when registered; every other record untouched. -/
theorem mapGet_sessions_handleResponsePost (st : DaemonState) (body : RespBody)
    (now : Nat) (newId : String) (sid' : String) :
    mapGet (handleResponsePost st body now newId).1.sessions sid' =
      (if sid' = optStr body.sessionId "unknown" then
        (mapGet st.sessions sid').map
          (fun m => { m with lastActivity := now, turnCount := m.turnCount + 1 })
       else mapGet st.sessions sid') := by
  have hse : ∀ x, mapGet (ensureSession st x).sessions sid' = mapGet st.sessions sid' := by
    intro x
    rw [sessions_ensureSession]
  dsimp only [handleResponsePost]
  split
  case _ meta hm =>
    dsimp only
    rw [sessions_ensureSession] at hm
    by_cases h2 : sid' = optStr body.sessionId "unknown"
    · subst h2
      rw [if_pos rfl, mapGet_mapSet_self, hm]
      rfl
    · rw [if_neg h2, mapGet_mapSet_ne _ _ _ _ h2, hse]
  case _ hm =>
    dsimp only
    rw [sessions_ensureSession] at hm
    by_cases h2 : sid' = optStr body.sessionId "unknown"
    · subst h2
      rw [if_pos rfl, hse, hm]
      rfl
    · rw [if_neg h2, hse]

/-- The response handler leaves every annotation sequence except possibly
the target session's untouched (the target's can only gain an empty
sequence via `ensureSession`). -/
theorem mapGet_annots_handleResponsePost_ne (st : DaemonState) (body : RespBody)
    (now : Nat) (newId : String) (sid' : String)
    (h : sid' ≠ optStr body.sessionId "unknown") :
    mapGet (handleResponsePost st body now newId).1.annotationsBySession sid' =
      mapGet st.annotationsBySession sid' := by
  dsimp only [handleResponsePost]
  split <;> exact mapGet_annotsBySession_ensureSession_ne st _ sid' h

/-- The response handler broadcasts exactly one `new_response` event. -/
theorem events_handleResponsePost (st : DaemonState) (body : RespBody)
    (now : Nat) (newId : String) :
    (handleResponsePost st body now newId).2 =
      [Event.new_response (mkRespEntry body now newId)] := by
  rfl

/-- The annotate handler's queue effect. -/
theorem getAnnotsFor_handleAnnotatePost (st : DaemonState) (body : AnnotBody)
    (now : Nat) (newId : String) (sid' : String) :
    getAnnotsFor (handleAnnotatePost st body now newId).1 sid' =
      (if sid' = optStr body.sessionId "unknown" then
        getAnnotsFor st sid' ++
          [{ id := newId, sessionId := optStr body.sessionId "unknown",
             responseId := body.responseId, selectedText := body.selectedText,
             comment := body.comment, timestamp := now }]
       else getAnnotsFor st sid') := by
  dsimp only [handleAnnotatePost]
  unfold getAnnotsFor
  dsimp only
  by_cases h2 : sid' = optStr body.sessionId "unknown"
  · subst h2
    rw [if_pos rfl, mapGet_mapSet_self]
    have := getAnnotsFor_ensureSession st (optStr body.sessionId "unknown")
      (optStr body.sessionId "unknown")
    unfold getAnnotsFor at this
    rw [this]
    rfl
  · rw [if_neg h2, mapGet_mapSet_ne _ _ _ _ h2]
    have := mapGet_annotsBySession_ensureSession_ne st _ sid' h2
    rw [this]

/-- The annotate handler never touches the session registry. -/
theorem sessions_handleAnnotatePost (st : DaemonState) (body : AnnotBody)
    (now : Nat) (newId : String) :
    (handleAnnotatePost st body now newId).1.sessions = st.sessions := by
  dsimp only [handleAnnotatePost]
  rw [sessions_ensureSession]

/-- The annotate handler leaves every response ledger except possibly the
target session's untouched. -/
theorem mapGet_resp_handleAnnotatePost_ne (st : DaemonState) (body : AnnotBody)
    (now : Nat) (newId : String) (sid' : String)
    (h : sid' ≠ optStr body.sessionId "unknown") :
    mapGet (handleAnnotatePost st body now newId).1.responsesBySession sid' =
      mapGet st.responsesBySession sid' := by
  dsimp only [handleAnnotatePost]
  exact mapGet_respBySession_ensureSession_ne st _ sid' h

/-! ### C6: ledger append order and id uniqueness -/

/-- A ledger reached by two appends for which `generateId()`
(`Math.random().toString(36).substring(2, 10)`) returned the same string
twice — a possible pair of `Math.random` outcomes, since nothing in the
code prevents repetition. -/
def stC6dup : DaemonState :=
  (handleResponsePost
    (handleResponsePost initialState ⟨some "s", none, some "one"⟩ 1 "a1b2c3d4").1
    ⟨some "s", none, some "two"⟩ 2 "a1b2c3d4").1

/-- Claim C6 counterexample: with a repeated `generateId()` outcome the
ledger holds two entries with the same id, so ids are not unique across
all entries as the claim asserts. -/
theorem C6_unique_ids_counterexample :
    (listResponsesFor stC6dup "s").map (fun r => r.id) = ["a1b2c3d4", "a1b2c3d4"] ∧
    ¬((listResponsesFor stC6dup "s").map (fun r => r.id)).Nodup := by
  decide

/-- One `appendResponse` call: its body, `Date.now()` and the id
`generateId()` produced. -/
structure RespCall where
  body : RespBody
  now : Nat
  newId : String
deriving DecidableEq

/-- A sequence of `POST /api/response` calls. -/
def runAppends (st : DaemonState) (calls : List RespCall) : DaemonState :=
  calls.foldl (fun s c => (handleResponsePost s c.body c.now c.newId).1) st

/-- Ledger contents after a sequence of appends all targeting `sid`. -/
theorem runAppends_listResponses (calls : List RespCall) (st : DaemonState) (sid : String)
    (h : ∀ c ∈ calls, optStr c.body.sessionId "unknown" = sid) :
    listResponsesFor (runAppends st calls) sid =
      listResponsesFor st sid ++ calls.map (fun c => mkRespEntry c.body c.now c.newId) := by
  induction calls generalizing st with
  | nil => simp [runAppends]
  | cons c rest ih =>
    have hc : optStr c.body.sessionId "unknown" = sid := h c (List.mem_cons_self c rest)
    have hrest : ∀ c' ∈ rest, optStr c'.body.sessionId "unknown" = sid := by
      intro c' hc'
      exact h c' (List.mem_cons_of_mem c hc')
    show listResponsesFor (runAppends (handleResponsePost st c.body c.now c.newId).1 rest) sid = _
    rw [ih _ hrest, listResponsesFor_handleResponsePost, hc, if_pos rfl]
    simp

/-- Claim C6, amended: for every sequence of `appendResponse` calls on
one session, `listResponses(sessionId)` returns exactly those entries in
append order, and — provided the `Math.random`-based id generator
happened to return pairwise-distinct strings — their ids are unique.
(The unamended claim is refuted by `C6_unique_ids_counterexample`:
nothing in the code rules out a repeated `generateId()` outcome.) -/
theorem C6_append_order_unique_ids (calls : List RespCall) (sid : String)
    (hsid : ∀ c ∈ calls, optStr c.body.sessionId "unknown" = sid)
    (hids : (calls.map (fun c => c.newId)).Nodup) :
    listResponsesFor (runAppends initialState calls) sid =
      calls.map (fun c => mkRespEntry c.body c.now c.newId) ∧
    ((listResponsesFor (runAppends initialState calls) sid).map (fun r => r.id)).Nodup := by
  have horder := runAppends_listResponses calls initialState sid hsid
  have hstart : listResponsesFor initialState sid = [] := rfl
  rw [hstart, List.nil_append] at horder
  refine ⟨horder, ?_⟩
  rw [horder, List.map_map]
  have hfun : ((fun (r : RespEntry) => r.id) ∘ fun (c : RespCall) => mkRespEntry c.body c.now c.newId) =
      fun (c : RespCall) => c.newId := by
    funext c
    rfl
  rw [hfun]
  exact hids

/-- Concrete calls for the C6 witness: two appends to `"s"` with distinct
generated ids. -/
def callsC6 : List RespCall :=
  [⟨⟨some "s", none, some "hello"⟩, 1, "id000001"⟩,
   ⟨⟨some "s", some "user", some "again"⟩, 2, "id000002"⟩]

theorem C6_append_order_unique_ids_witness :
    listResponsesFor (runAppends initialState callsC6) "s" =
      [⟨"id000001", "s", 1, "assistant", "hello"⟩,
       ⟨"id000002", "s", 2, "user", "again"⟩] ∧
    ((listResponsesFor (runAppends initialState callsC6) "s").map (fun r => r.id)).Nodup := by
  refine ⟨(C6_append_order_unique_ids callsC6 "s" (by decide) (by decide)).1.trans (by decide),
    (C6_append_order_unique_ids callsC6 "s" (by decide) (by decide)).2⟩

/-! ### C7: empty-content appends -/

/-- World whose repo-root lookups fail, so registration touches no git
state: used to register the session for the C7 counterexample. -/
def wPlain : World :=
  { home := "/home/u",
    gitInfo := fun _ => ⟨none, none, none⟩,
    repoRoot := fun _ => none,
    gitStatus := fun _ => none,
    transcript := fun _ => none,
    fileSize := fun _ => none,
    contextDocs := fun _ _ => ⟨[], 0, 0⟩ }

/-- A registered session `"s"` with zero turns. -/
def stC7reg : DaemonState :=
  (handleSessionPost wPlain initialState ⟨some "s", some "/w", none, none, none, none⟩ 10).1

/-- The same state after `POST /api/response` with empty content. -/
def stC7after : DaemonState :=
  (handleResponsePost stC7reg ⟨some "s", none, some ""⟩ 20 "e1").1

/-- Claim C7 counterexample: an empty-content append is not a no-op — the
handler has no content check at all.  The ledger grows by one (empty)
entry, the turn counter increments, the activity timestamp moves, and a
`new_response` event is broadcast. -/
theorem C7_empty_content_counterexample :
    (listResponsesFor stC7reg "s").length = 0 ∧
    (mapGet stC7reg.sessions "s").map (fun m => m.turnCount) = some 0 ∧
    listResponsesFor stC7after "s" = [⟨"e1", "s", 20, "assistant", ""⟩] ∧
    (mapGet stC7after.sessions "s").map (fun m => m.turnCount) = some 1 ∧
    (mapGet stC7after.sessions "s").map (fun m => m.lastActivity) = some 20 ∧
    (handleResponsePost stC7reg ⟨some "s", none, some ""⟩ 20 "e1").2 ≠ [] := by
  decide

/-- Claim C7, amended: `appendResponse` applies no content validation —
an empty-content call behaves exactly like any other append: it appends
an entry with empty content to the session's ledger, increments the
session's turn counter and updates its activity timestamp when the
session is registered, and broadcasts one `new_response` event. -/
theorem C7_empty_content_appends (st : DaemonState) (body : RespBody) (now : Nat)
    (newId : String) (hempty : body.content = none ∨ body.content = some "") :
    listResponsesFor (handleResponsePost st body now newId).1 (optStr body.sessionId "unknown") =
      listResponsesFor st (optStr body.sessionId "unknown") ++
        [{ id := newId, sessionId := optStr body.sessionId "unknown", timestamp := now,
           role := optStr body.role "assistant", content := "" }] ∧
    mapGet (handleResponsePost st body now newId).1.sessions (optStr body.sessionId "unknown") =
      (mapGet st.sessions (optStr body.sessionId "unknown")).map
        (fun m => { m with lastActivity := now, turnCount := m.turnCount + 1 }) ∧
    (handleResponsePost st body now newId).2 =
      [Event.new_response
        { id := newId, sessionId := optStr body.sessionId "unknown", timestamp := now,
          role := optStr body.role "assistant", content := "" }] := by
  have hentry : mkRespEntry body now newId =
      { id := newId, sessionId := optStr body.sessionId "unknown", timestamp := now,
        role := optStr body.role "assistant", content := "" } := by
    cases hempty with
    | inl h => simp [mkRespEntry, h]
    | inr h => simp [mkRespEntry, h]
  refine ⟨?_, ?_, ?_⟩
  · rw [listResponsesFor_handleResponsePost, if_pos rfl, hentry]
  · rw [mapGet_sessions_handleResponsePost, if_pos rfl]
  · rw [events_handleResponsePost, hentry]

theorem C7_empty_content_appends_witness :
    listResponsesFor stC7after "s" =
      listResponsesFor stC7reg "s" ++ [⟨"e1", "s", 20, "assistant", ""⟩] ∧
    mapGet stC7after.sessions "s" =
      (mapGet stC7reg.sessions "s").map
        (fun m => { m with lastActivity := 20, turnCount := m.turnCount + 1 }) ∧
    (handleResponsePost stC7reg ⟨some "s", none, some ""⟩ 20 "e1").2 =
      [Event.new_response ⟨"e1", "s", 20, "assistant", ""⟩] := by
  exact C7_empty_content_appends stC7reg ⟨some "s", none, some ""⟩ 20 "e1" (Or.inr rfl)

/-! ### C8: missing-input handling -/

theorem mapGet_resp_handleResponsePost_ne (st : DaemonState) (body : RespBody)
    (now : Nat) (newId : String) (s : String)
    (h : s ≠ optStr body.sessionId "unknown") :
    mapGet (handleResponsePost st body now newId).1.responsesBySession s =
      mapGet st.responsesBySession s := by
  dsimp only [handleResponsePost]
  split <;>
    (rw [mapGet_mapSet_ne _ _ _ _ h]
     exact mapGet_respBySession_ensureSession_ne st _ s h)

theorem mapGet_annots_handleAnnotatePost_ne (st : DaemonState) (body : AnnotBody)
    (now : Nat) (newId : String) (s : String)
    (h : s ≠ optStr body.sessionId "unknown") :
    mapGet (handleAnnotatePost st body now newId).1.annotationsBySession s =
      mapGet st.annotationsBySession s := by
  dsimp only [handleAnnotatePost]
  rw [mapGet_mapSet_ne _ _ _ _ h]
  exact mapGet_annotsBySession_ensureSession_ne st _ s h

/-- A registered session `"other"` against which the C8 frame conditions
are checked. -/
def stC8base : DaemonState :=
  (handleSessionPost wPlain initialState ⟨some "other", some "/w", none, none, none, none⟩ 1).1

/-- State produced by an output-capture notification with no session id. -/
def stC8resp : DaemonState :=
  (handleResponsePost initialState ⟨none, none, some "hi"⟩ 5 "k1").1

/-- Claim C8 counterexample: an output-capture notification without a
session id is not rejected — the handler defaults the id to the sentinel
`"unknown"`, creates stores for it, appends the entry and broadcasts, so
state is mutated. -/
theorem C8_missing_id_counterexample :
    stC8resp ≠ initialState ∧
    listResponsesFor stC8resp "unknown" = [⟨"k1", "unknown", 5, "assistant", "hi"⟩] ∧
    (handleResponsePost initialState ⟨none, none, some "hi"⟩ 5 "k1").2 ≠ [] := by
  decide

/-- Claim C8, amended: only the session-start notification rejects a
missing (falsy) session id, with no state mutation.  Output-capture and
annotation-add notifications with a missing id are not rejected: they are
attributed to the sentinel session `"unknown"`, and only that sentinel
bucket is mutated — every other session's ledger, queue and registry
record is unchanged.  A session-end notification with a missing id
mutates nothing but still broadcasts a `session_ended` event. -/
theorem C8_missing_id_amended :
    (∀ (w : World) (st : DaemonState) (body : SessionBody) (now : Nat),
       optTruthy body.sessionId = false →
       handleSessionPost w st body now = (st, ([], false))) ∧
    (∀ (st : DaemonState) (body : RespBody) (now : Nat) (newId : String),
       optTruthy body.sessionId = false →
       (listResponsesFor (handleResponsePost st body now newId).1 "unknown" =
          listResponsesFor st "unknown" ++ [mkRespEntry body now newId] ∧
        ∀ s, s ≠ "unknown" →
          mapGet (handleResponsePost st body now newId).1.responsesBySession s =
            mapGet st.responsesBySession s ∧
          mapGet (handleResponsePost st body now newId).1.annotationsBySession s =
            mapGet st.annotationsBySession s ∧
          mapGet (handleResponsePost st body now newId).1.sessions s =
            mapGet st.sessions s)) ∧
    (∀ (st : DaemonState) (body : AnnotBody) (now : Nat) (newId : String),
       optTruthy body.sessionId = false →
       (getAnnotsFor (handleAnnotatePost st body now newId).1 "unknown" =
          getAnnotsFor st "unknown" ++
            [⟨newId, "unknown", body.responseId, body.selectedText, body.comment, now⟩] ∧
        (handleAnnotatePost st body now newId).1.sessions = st.sessions ∧
        ∀ s, s ≠ "unknown" →
          mapGet (handleAnnotatePost st body now newId).1.annotationsBySession s =
            mapGet st.annotationsBySession s ∧
          mapGet (handleAnnotatePost st body now newId).1.responsesBySession s =
            mapGet st.responsesBySession s)) ∧
    (∀ (w : World) (st : DaemonState) (body : SessionEndBody),
       body.sessionId = none →
       handleSessionEnd w st body = (st, [Event.session_ended none body.reason])) := by
  refine ⟨?_, ?_, ?_, ?_⟩
  · intro w st body now h
    simp [handleSessionPost, h]
  · intro st body now newId h
    have hu : optStr body.sessionId "unknown" = "unknown" := optStr_of_falsy _ _ h
    constructor
    · rw [listResponsesFor_handleResponsePost, hu, if_pos rfl]
    · intro s hs
      have hs' : s ≠ optStr body.sessionId "unknown" := by rw [hu]; exact hs
      refine ⟨mapGet_resp_handleResponsePost_ne st body now newId s hs',
        mapGet_annots_handleResponsePost_ne st body now newId s hs', ?_⟩
      rw [mapGet_sessions_handleResponsePost, hu, if_neg hs]
  · intro st body now newId h
    have hu : optStr body.sessionId "unknown" = "unknown" := optStr_of_falsy _ _ h
    refine ⟨?_, sessions_handleAnnotatePost st body now newId, ?_⟩
    · rw [getAnnotsFor_handleAnnotatePost, hu, if_pos rfl]
    · intro s hs
      have hs' : s ≠ optStr body.sessionId "unknown" := by rw [hu]; exact hs
      exact ⟨mapGet_annots_handleAnnotatePost_ne st body now newId s hs',
        mapGet_resp_handleAnnotatePost_ne st body now newId s hs'⟩
  · intro w st body h
    simp [handleSessionEnd, h]

theorem C8_missing_id_amended_witness :
    handleSessionPost wPlain stC8base ⟨none, some "/w", none, none, none, none⟩ 3 =
      (stC8base, ([], false)) ∧
    listResponsesFor (handleResponsePost stC8base ⟨none, none, some "hi"⟩ 5 "k1").1 "unknown" =
      [⟨"k1", "unknown", 5, "assistant", "hi"⟩] ∧
    mapGet (handleResponsePost stC8base ⟨none, none, some "hi"⟩ 5 "k1").1.sessions "other" =
      mapGet stC8base.sessions "other" ∧
    getAnnotsFor (handleAnnotatePost stC8base ⟨none, "r", "t", "c"⟩ 6 "k2").1 "unknown" =
      [⟨"k2", "unknown", "r", "t", "c", 6⟩] ∧
    mapGet (handleAnnotatePost stC8base ⟨none, "r", "t", "c"⟩ 6 "k2").1.annotationsBySession "other" =
      mapGet stC8base.annotationsBySession "other" ∧
    handleSessionEnd wPlain stC8base ⟨none, some "done", none⟩ =
      (stC8base, [Event.session_ended none (some "done")]) := by
  refine ⟨C8_missing_id_amended.1 wPlain stC8base _ 3 (by decide),
    ((C8_missing_id_amended.2.1 stC8base ⟨none, none, some "hi"⟩ 5 "k1" (by decide)).1).trans (by decide),
    ((C8_missing_id_amended.2.1 stC8base ⟨none, none, some "hi"⟩ 5 "k1" (by decide)).2 "other" (by decide)).2.2,
    ((C8_missing_id_amended.2.2.1 stC8base ⟨none, "r", "t", "c"⟩ 6 "k2" (by decide)).1).trans (by decide),
    ((C8_missing_id_amended.2.2.1 stC8base ⟨none, "r", "t", "c"⟩ 6 "k2" (by decide)).2.2 "other" (by decide)).1,
    C8_missing_id_amended.2.2.2 wPlain stC8base _ rfl⟩

/-! ### C9: derived-stats cache coherence -/

/-- Claim C9: for a session with a cached context-docs result, a read
within the TTL whose file byte length equals the recorded one returns the
identical cached object with no re-scan and leaves the state untouched;
and whenever the current byte length differs from the recorded one, the
read re-scans regardless of the entry's age. -/
theorem C9_cache_coherence (w : World) (st : DaemonState) (sid : String) (now : Nat)
    (meta : SessionMeta) (tp : String) (c : ContextDocsCacheEntry)
    (hsid : sid ≠ "")
    (hmeta : mapGet st.sessions sid = some meta)
    (htp : resolveTranscriptPath w.home meta = some tp)
    (hc : mapGet st.contextDocsCache sid = some c) :
    (now - c.ts < CONTEXT_DOCS_TTL → w.fileSize tp = some c.fileSize →
       handleContextDocsGet w st (some sid) now =
         (st, (ContextDocsResponse.result c.result, false))) ∧
    (∀ n, w.fileSize tp = some n → n ≠ c.fileSize →
       (handleContextDocsGet w st (some sid) now).2.2 = true) := by
  have htr : optTruthy (some sid) = true := by simp [optTruthy, hsid]
  constructor
  · intro hage hfs
    simp [handleContextDocsGet, htr, hmeta, htp, hc, hage, hfs]
  · intro n hfs hne
    by_cases hage : now - c.ts < CONTEXT_DOCS_TTL
    · simp [handleContextDocsGet, htr, hmeta, htp, hc, hage, hfs, hne]
    · simp [handleContextDocsGet, htr, hmeta, htp, hc, hage]

/-- Session record for the C9 witness. -/
def metaC9 : SessionMeta :=
  { sessionId := "s", cwd := "/p", model := "m", permissionMode := "default",
    startedAt := 0, claudeVersion := none, gitBranch := none, gitRemote := none,
    gitRepo := none, transcriptPath := some "/t", source := none, lastActivity := 0,
    totalTokensIn := 0, totalTokensOut := 0, turnCount := 0, gitStatus := none }

/-- A distinguishable cached result. -/
def resC9 : ContextDocsResult := ⟨[⟨"/p/a.md", "a.md", 3, "t0", "t1", "Read"⟩], 3, 1⟩

/-- State with session `"s"` and a cache entry recorded at ts 1000 with
byte length 50. -/
def stC9 : DaemonState :=
  { initialState with
    sessions := [("s", metaC9)],
    contextDocsCache := [("s", ⟨resC9, 1000, 50⟩)] }

/-- World whose file-size probe of `/t` reports the recorded length. -/
def wC9same : World :=
  { wPlain with fileSize := fun p => if p = "/t" then some 50 else none }

/-- World whose file-size probe of `/t` reports a grown file. -/
def wC9grown : World :=
  { wPlain with fileSize := fun p => if p = "/t" then some 60 else none }

theorem C9_cache_coherence_witness :
    handleContextDocsGet wC9same stC9 (some "s") 1005 =
      (stC9, (ContextDocsResponse.result resC9, false)) ∧
    (handleContextDocsGet wC9grown stC9 (some "s") 1005).2.2 = true := by
  refine ⟨(C9_cache_coherence wC9same stC9 "s" 1005 metaC9 "/t" ⟨resC9, 1000, 50⟩
      (by decide) rfl rfl rfl).1 (by decide) (by decide),
    (C9_cache_coherence wC9grown stC9 "s" 1005 metaC9 "/t" ⟨resC9, 1000, 50⟩
      (by decide) rfl rfl rfl).2 60 (by decide) (by decide)⟩

end Foldspace
